import Mathlib

/-!
# Verification of the Tomabechi quasi-destructive unifier

Shallow embedding of `src/tomabechi_algorithm.py`.  Python objects of class
`DGNode` live on a heap addressed by natural-number ids (standing for Python
object identity); `Arc.value` stores the id of the child node.  Mutation is
explicit state passing on `UState`; Python exceptions become the `Res.exc`
constructor; running out of interpreter fuel (or a dangling id, which cannot
arise in the scenarios considered here) is `Res.stuck`, kept distinct from
every real outcome of the program.
-/

set_option autoImplicit false

namespace Tomabechi

/-- `NodeType` enum from the source (ATOMIC / LEAF / COMPLEX). -/
inductive NodeType where
  | atomic
  | leaf
  | complex
  deriving DecidableEq, Repr

/-- `Arc` dataclass: a labelled edge.  `value` is the heap id of the child
node (Python stores an object reference).  The source's `Arc.__hash__` and
`Arc.__eq__` are never used by the algorithm and are not modelled. -/
structure Arc where
  label : String
  value : Nat
  deriving DecidableEq, Repr

/-- `DGNode` dataclass.  The `mark` field of the source is never read or
written by any function of the module and is omitted.  `forward` and `copy`
hold heap ids (Python object references) when present. -/
structure DGNode where
  node_type : NodeType
  arc_list : List Arc := []
  comp_arc_list : List Arc := []
  forward : Option Nat := none
  copy : Option Nat := none
  generation : Nat := 0
  name : Option String := none
  deriving DecidableEq, Repr

/-- The Python object heap: an association list from object id to node. -/
abbrev Heap := List (Nat × DGNode)

/-- Read the node stored at id `i` (first matching entry). -/
def hget (h : Heap) (i : Nat) : Option DGNode :=
  match h with
  | [] => none
  | (j, nd) :: rest => if j = i then some nd else hget rest i

/-- Overwrite the node stored at id `i`; a no-op when `i` is absent
(mutating a Python object always finds it, so the no-op case is dead in
every run considered here). -/
def hset (h : Heap) (i : Nat) (nd : DGNode) : Heap :=
  match h with
  | [] => []
  | (j, old) :: rest => if j = i then (j, nd) :: rest else (j, old) :: hset rest i nd

/-- State of a `TomabechiUnifier` together with the process-wide
`UnificationCounter` (initialised to 10 in the source) and the heap.
`shared_structures` stands for the `WeakSet`, as the set of member ids; in
CPython it can never acquire a member, because `DGNode` (a `@dataclass`
with `eq` and without `frozen`) is unhashable, so every hash-based
operation on the set — membership test and `add` alike, even on an empty
set — raises `TypeError`; `copy_with_comp_arcs` models that faithfully. -/
structure UState where
  heap : Heap
  nextId : Nat
  counter : Nat
  structure_sharing : Bool
  shared_structures : List Nat
  deriving DecidableEq, Repr

/-- The exception classes the algorithm can raise: `UnificationFailure`,
`ValueError` (circular reference detected in `dereference`) and
`TypeError` (the `WeakSet` in `copy_with_comp_arcs` hashing the unhashable
`DGNode`). -/
inductive PyExc where
  | unificationFailure
  | valueError
  | typeError
  deriving DecidableEq, Repr

/-- Outcome of running a piece of the program: normal return with the
resulting state, an escaping Python exception with the state at raise
time, or `stuck` (out of fuel / dangling id — a model artifact, never a
program behaviour). -/
inductive Res (α : Type) where
  | ok : α → UState → Res α
  | exc : PyExc → UState → Res α
  | stuck : Res α
  deriving DecidableEq, Repr

/-- `UnificationCounter.next_generation`: increment and return. -/
def next_generation (s : UState) : Nat × UState :=
  (s.counter + 1, { s with counter := s.counter + 1 })

/-- `is_leaf_node`. -/
def is_leaf_node (nd : DGNode) : Bool :=
  match nd.node_type with
  | NodeType.leaf => true
  | _ => false

/-- `is_complex_node` (present in the source; `unify_core` never calls it). -/
def is_complex_node (nd : DGNode) : Bool :=
  match nd.node_type with
  | NodeType.complex => true
  | _ => false

/-- `find_arc`: first arc with the given label. -/
def find_arc (label : String) (arc_list : List Arc) : Option Arc :=
  match arc_list with
  | [] => none
  | arc :: rest => if arc.label = label then some arc else find_arc label rest

/-- Labels of an arc list.  The source builds a Python `set` of labels; it is
used only for membership tests, so a list with `∈` is an exact model. -/
def arcLabels (arcs : List Arc) : List String :=
  arcs.map Arc.label

/-- Loop body of `intersect_arcs`: walk `arcs2`, keeping arcs whose label is
in `labels1`, in order. -/
def intersectGo (labels1 : List String) : List Arc → List Arc
  | [] => []
  | a :: rest =>
    if a.label ∈ labels1 then a :: intersectGo labels1 rest
    else intersectGo labels1 rest

/-- `intersect_arcs(arcs1, arcs2)`: note the source iterates over `arcs2`
and returns arcs *of `arcs2`*, in `arcs2`'s order. -/
def intersect_arcs (arcs1 arcs2 : List Arc) : List Arc :=
  intersectGo (arcLabels arcs1) arcs2

/-- Loop body of `complement_arcs`: walk `arcs1`, keeping arcs whose label is
not in `labels2`, in order. -/
def complementGo (labels2 : List String) : List Arc → List Arc
  | [] => []
  | a :: rest =>
    if a.label ∈ labels2 then complementGo labels2 rest
    else a :: complementGo labels2 rest

/-- `complement_arcs(arcs1, arcs2)`: arcs of `arcs1` whose label does not
occur in `arcs2`. -/
def complement_arcs (arcs1 arcs2 : List Arc) : List Arc :=
  complementGo (arcLabels arcs2) arcs1

/-- While-loop of `dereference`: follow `forward` links, accumulating the
`path` list, raising `ValueError` when the current node is already on the
path.  The source tests membership with Python `in`, which short-circuits on
object identity before falling back to `__eq__`; membership of ids models
this (on acyclic chains the structural `__eq__` fallback never fires, and on
the revisited node identity fires first). -/
def derefLoop : Nat → Nat → List Nat → UState → Res (Nat × List Nat)
  | 0, _, _, _ => Res.stuck
  | fuel + 1, cur, path, s =>
    match hget s.heap cur with
    | none => Res.stuck
    | some nd =>
      match nd.forward with
      | none => Res.ok (cur, path) s
      | some nxt =>
        if cur ∈ path then Res.exc PyExc.valueError s
        else derefLoop fuel nxt (path ++ [cur]) s

/-- Path-compression loop of `dereference`: set `forward` of every node on
the path directly to the representative.  The `generation` field is left
untouched, exactly as in the source. -/
def compress (h : Heap) (path : List Nat) (rep : Nat) : Heap :=
  match path with
  | [] => h
  | i :: rest =>
    match hget h i with
    | none => compress h rest rep
    | some nd => compress (hset h i { nd with forward := some rep }) rest rep

/-- `dereference`: resolve a node to its representative, compressing the
path on the way out. -/
def dereference (fuel : Nat) (n : Nat) (s : UState) : Res Nat :=
  match derefLoop fuel n [] s with
  | Res.ok (rep, path) s1 => Res.ok rep { s1 with heap := compress s1.heap path rep }
  | Res.exc e s1 => Res.exc e s1
  | Res.stuck => Res.stuck

/-- Work items for the fuel-indexed interpreter of `unify_core`:
`pair n1 n2` is a call `unify_core(n1, n2)`; `loop shared d1 d2 nw` is the
`for arc in shared_arcs` loop over the remaining `shared` arcs followed by
the three trailing writes (`comp_arc_list.extend(nw)`, `generation`,
`forward = d2`).  The source reaches those writes with `shared = []` both on
the no-shared-arc branch and after an exhausted loop, which is exactly the
`loop [] d1 d2 nw` case. -/
inductive UTask where
  | pair : Nat → Nat → UTask
  | loop : List Arc → Nat → Nat → List Arc → UTask
  deriving DecidableEq, Repr

/-- `unify_core`, fuel-indexed.  All recursive calls (including each loop
iteration) consume one unit of fuel, so the recursion is structural; with
enough fuel the result coincides with the Python recursion. -/
def ucAux : Nat → UTask → UState → Res Bool
  | 0, _, _ => Res.stuck
  | fuel + 1, UTask.pair n1 n2, s =>
    match dereference (fuel + 1) n1 s with
    | Res.exc e s1 => Res.exc e s1
    | Res.stuck => Res.stuck
    | Res.ok d1 s1 =>
      match dereference (fuel + 1) n2 s1 with
      | Res.exc e s2 => Res.exc e s2
      | Res.stuck => Res.stuck
      | Res.ok d2 s2 =>
        if d1 = d2 then Res.ok true s2
        else
          match hget s2.heap d1, hget s2.heap d2 with
          | some nd1, some nd2 =>
            if is_leaf_node nd1 && is_leaf_node nd2 then
              if nd1.name = nd2.name then Res.ok true s2
              else Res.exc PyExc.unificationFailure s2
            else if is_leaf_node nd1 then
              let (g, s3) := next_generation s2
              Res.ok true
                { s3 with heap := hset s3.heap d1 { nd1 with forward := some d2, generation := g } }
            else if is_leaf_node nd2 then
              let (g, s3) := next_generation s2
              Res.ok true
                { s3 with heap := hset s3.heap d2 { nd2 with forward := some d1, generation := g } }
            else
              let shared := intersect_arcs nd1.arc_list nd2.arc_list
              let nw := complement_arcs nd2.arc_list nd1.arc_list
              ucAux fuel (UTask.loop shared d1 d2 nw) s2
          | _, _ => Res.stuck
  | _fuel + 1, UTask.loop [] d1 d2 nw, s =>
    match hget s.heap d1 with
    | none => Res.stuck
    | some nd1 =>
      let (g, s1) := next_generation s
      Res.ok true
        { s1 with
          heap := hset s1.heap d1
            { nd1 with
              comp_arc_list := nd1.comp_arc_list ++ nw
              generation := g
              forward := some d2 } }
  | fuel + 1, UTask.loop (arc :: rest) d1 d2 nw, s =>
    match hget s.heap d1 with
    | none => Res.stuck
    | some nd1 =>
      match find_arc arc.label nd1.arc_list with
      | some arc1 =>
        match ucAux fuel (UTask.pair arc1.value arc.value) s with
        | Res.ok _ s1 => ucAux fuel (UTask.loop rest d1 d2 nw) s1
        | Res.exc e s1 => Res.exc e s1
        | Res.stuck => Res.stuck
      | none => ucAux fuel (UTask.loop rest d1 d2 nw) s

/-- `unify_core(n1, n2)` with the given fuel. -/
def unify_core (fuel : Nat) (n1 n2 : Nat) (s : UState) : Res Bool :=
  ucAux fuel (UTask.pair n1 n2) s

/-- `copy_with_comp_arcs`.  With `structure_sharing` on, the first thing the
source evaluates is the membership test `node in self.shared_structures`;
the `WeakSet` hashes the node (even when the set is empty) and `DGNode` — a
`@dataclass` with `eq=True`, `frozen=False` — has `__hash__ = None`, so the
test raises `TypeError` unconditionally: the structure-sharing branch (and
the later `copy` caching and `WeakSet.add`) is unreachable in CPython.
With `structure_sharing` off, the `and` short-circuits and the source
copies only the single node it is given — `arc_list` and `comp_arc_list` are
`.copy()`-ed lists whose `Arc` entries still reference the original child
objects, `comp_arc_list` is folded into the copied `arc_list`, and no
dereference and no recursion into children happens. -/
def copy_with_comp_arcs (n : Nat) (s : UState) : Res Nat :=
  if s.structure_sharing then
    Res.exc PyExc.typeError s
  else
    match hget s.heap n with
    | none => Res.stuck
    | some nd =>
      let newNode : DGNode :=
        { node_type := nd.node_type
          arc_list := nd.arc_list ++ nd.comp_arc_list
          comp_arc_list := []
          forward := none
          copy := none
          generation := 0
          name := nd.name }
      let nid := s.nextId
      Res.ok nid { s with heap := (nid, newNode) :: s.heap, nextId := nid + 1 }

/-- Top-level `unify`: run `unify_core`, copy out `node1` on success, map
`UnificationFailure` to the failure indicator `None`; every other exception
(`ValueError` from cycle detection, `TypeError` from the sharing branch of
copy-out) propagates past the boundary. -/
def unify (fuel : Nat) (n1 n2 : Nat) (s : UState) : Res (Option Nat) :=
  match unify_core fuel n1 n2 s with
  | Res.ok true s1 =>
    match copy_with_comp_arcs n1 s1 with
    | Res.ok r s2 => Res.ok (some r) s2
    | Res.exc e s2 => Res.exc e s2
    | Res.stuck => Res.stuck
  | Res.ok false s1 => Res.ok none s1
  | Res.exc PyExc.unificationFailure s1 => Res.ok none s1
  | Res.exc e s1 => Res.exc e s1
  | Res.stuck => Res.stuck

/-- A fresh `TomabechiUnifier` over a given heap: counter at 10 (the
singleton `UnificationCounter` start value), empty share set. -/
def initState (h : Heap) (sharing : Bool) (nid : Nat) : UState :=
  { heap := h
    nextId := nid
    counter := 10
    structure_sharing := sharing
    shared_structures := [] }

/-- True when a top-level `unify` run returned a result node. -/
def unifySucceeds : Res (Option Nat) → Bool
  | Res.ok (some _) _ => true
  | _ => false

/-- True when a top-level `unify` run returned the failure indicator
`None` (as opposed to succeeding or raising). -/
def unifyFails : Res (Option Nat) → Bool
  | Res.ok none _ => true
  | _ => false

/-- The node object a successful top-level `unify` run returned. -/
def resultNode : Res (Option Nat) → Option DGNode
  | Res.ok (some i) s => hget s.heap i
  | _ => none

/-- `create_leaf_node`. -/
def create_leaf_node (name : String) : DGNode :=
  { node_type := NodeType.leaf, name := some name }

/-- `create_complex_node`: builds the node, performing no validation of the
arc list. -/
def create_complex_node (arcs : List Arc) : DGNode :=
  { node_type := NodeType.complex, arc_list := arcs }

/-- State a successful top-level run ended in. -/
def finalState : Res (Option Nat) → Option UState
  | Res.ok _ s => some s
  | _ => none

/-- Heap id of the node object a successful run returned. -/
def resultId : Res (Option Nat) → Option Nat
  | Res.ok (some i) _ => some i
  | _ => none

/-- Run a second top-level `unify` on the state a first run returned
normally (episodes on the same unifier instance are sequential). -/
def andThenUnify (r : Res (Option Nat)) (fuel n1 n2 : Nat) : Res (Option Nat) :=
  match r with
  | Res.ok _ s => unify fuel n1 n2 s
  | _ => Res.stuck

/-- Observation of a `dereference` run: the representative returned, the
`forward` and `generation` fields of the probed node, and the counter. -/
def derefProbe (r : Res Nat) (i : Nat) : Option (Nat × Option (Option Nat × Nat) × Nat) :=
  match r with
  | Res.ok rep s => some (rep, (hget s.heap i).map (fun nd => (nd.forward, nd.generation)), s.counter)
  | _ => none

/-- Forward chain in a heap: `isChain h l r` says the ids in `l` each hold a
node whose `forward` points at the next id of `l` (at `r` for the last one)
and the node at `r` has no forward. -/
def isChain (h : Heap) : List Nat → Nat → Prop
  | [], r => ∃ nd, hget h r = some nd ∧ nd.forward = none
  | i :: rest, r => ∃ nd, hget h i = some nd ∧ nd.forward = some (rest.headD r) ∧ isChain h rest r

/-- Input heap for the preservation and sharing scenarios:
x = node 0 = complex {f: leaf "A"}, y = node 2 = complex {g: leaf "B"}. -/
def disjointPairHeap : Heap :=
  [(0, create_complex_node [⟨"f", 1⟩]), (1, create_leaf_node "A"),
   (2, create_complex_node [⟨"g", 3⟩]), (3, create_leaf_node "B")]

/-- Input heap for the copy-out scenario:
x = node 0 = complex {f: complex {h: leaf "A"}},
y = node 3 = complex {f: complex {k: leaf "B"}, g: leaf "C"}. -/
def nestedHeap : Heap :=
  [(0, create_complex_node [⟨"f", 1⟩]), (1, create_complex_node [⟨"h", 2⟩]),
   (2, create_leaf_node "A"), (3, create_complex_node [⟨"f", 4⟩, ⟨"g", 5⟩]),
   (4, create_complex_node [⟨"k", 6⟩]), (5, create_leaf_node "C"),
   (6, create_leaf_node "B")]

/-- Input heap for the commutativity scenario:
x = node 0 = complex {f: P, g: P} with P = node 1 = complex {s: leaf "A"},
y = node 3 = complex {f: complex {u: leaf "C"}, g: complex {s: leaf "B"}}. -/
def corefHeap : Heap :=
  [(0, create_complex_node [⟨"f", 1⟩, ⟨"g", 1⟩]), (1, create_complex_node [⟨"s", 2⟩]),
   (2, create_leaf_node "A"), (3, create_complex_node [⟨"f", 4⟩, ⟨"g", 5⟩]),
   (4, create_complex_node [⟨"u", 6⟩]), (6, create_leaf_node "C"),
   (5, create_complex_node [⟨"s", 7⟩]), (7, create_leaf_node "B")]

/-- Input heap with a cyclic forward pointer on node 0 (an ill-formed input,
invariant 1 of the specification broken). -/
def cycleHeap : Heap :=
  [(0, { create_leaf_node "A" with forward := some 0 }), (1, create_leaf_node "B")]

/-- Input heap with the forward chain 0 → 1 → 2 (all generations 0). -/
def chainHeap : Heap :=
  [(0, { create_leaf_node "A" with forward := some 1 }),
   (1, { create_leaf_node "B" with forward := some 2 }),
   (2, create_leaf_node "C")]

/-- Input heap whose root node 0 carries two arcs with the same label "f";
node 3 is a separate leaf operand. -/
def dupHeap : Heap :=
  [(0, create_complex_node [⟨"f", 1⟩, ⟨"f", 2⟩]), (1, create_leaf_node "A"),
   (2, create_leaf_node "B"), (3, create_leaf_node "X")]

/-- Input heap with a leaf-name clash at recursion depth two:
x = node 0 = complex {f: complex {h: leaf "A"}},
y = node 3 = complex {f: complex {h: leaf "B"}}. -/
def clashHeap : Heap :=
  [(0, create_complex_node [⟨"f", 1⟩]), (1, create_complex_node [⟨"h", 2⟩]),
   (2, create_leaf_node "A"), (3, create_complex_node [⟨"f", 4⟩]),
   (4, create_complex_node [⟨"h", 5⟩]), (5, create_leaf_node "B")]

/-- Heap holding two fresh leaves with the given names, at ids 0 and 1. -/
def leafPairHeap (a b : String) : Heap :=
  [(0, create_leaf_node a), (1, create_leaf_node b)]

/-- Top-level unification of two fresh leaves named `a` and `b`, on a
unifier with the given `structure_sharing` flag. -/
def unifyLeafRun (sharing : Bool) (a b : String) : Res (Option Nat) :=
  unify 10 0 1 (initState (leafPairHeap a b) sharing 2)

/-- Observation of a `unify_core` run: node `i` of the final heap and the
final counter, provided the run returned `True`. -/
def coreProbe (r : Res Bool) (i : Nat) : Option (Option DGNode × Nat) :=
  match r with
  | Res.ok true s => some (hget s.heap i, s.counter)
  | _ => none

/-! ## Helper lemmas about the heap and the pure arc operations -/

theorem hget_hset_self {h : Heap} {i : Nat} {nd0 nd : DGNode}
    (hp : hget h i = some nd0) : hget (hset h i nd) i = some nd := by
  induction h with
  | nil => simp [hget] at hp
  | cons e rest ih =>
    obtain ⟨j, old⟩ := e
    by_cases hj : j = i
    · subst hj
      simp [hget, hset]
    · simp only [hget, hset, if_neg hj] at hp ⊢
      exact ih hp

theorem hget_hset_ne {h : Heap} {i j : Nat} {nd : DGNode} (hne : j ≠ i) :
    hget (hset h i nd) j = hget h j := by
  have hne' : i ≠ j := fun hh => hne hh.symm
  induction h with
  | nil => simp [hget, hset]
  | cons e rest ih =>
    obtain ⟨k, old⟩ := e
    by_cases hk : k = i
    · subst hk
      simp [hget, hset, if_neg hne']
    · simp [hget, hset, if_neg hk, ih]

theorem intersectGo_eq_filter (ls : List String) (arcs : List Arc) :
    intersectGo ls arcs = arcs.filter (fun a => decide (a.label ∈ ls)) := by
  induction arcs with
  | nil => rfl
  | cons a rest ih =>
    by_cases hx : a.label ∈ ls <;> simp [intersectGo, hx, ih]

theorem intersectGo_eq_nil (ls : List String) (arcs : List Arc)
    (hd : ∀ a ∈ arcs, a.label ∉ ls) : intersectGo ls arcs = [] := by
  induction arcs with
  | nil => rfl
  | cons a rest ih =>
    have ha := hd a (by simp)
    simp only [intersectGo, if_neg ha]
    exact ih (fun x hx => hd x (by simp [hx]))

theorem complementGo_eq_self (ls : List String) (arcs : List Arc)
    (hd : ∀ a ∈ arcs, a.label ∉ ls) : complementGo ls arcs = arcs := by
  induction arcs with
  | nil => rfl
  | cons a rest ih =>
    have ha := hd a (by simp)
    simp only [complementGo, if_neg ha]
    rw [ih (fun x hx => hd x (by simp [hx]))]

/-! ## Claim theorems -/

/-- C1: the quasi-destructive input-preservation property fails on the
code.  With x = complex (f: leaf A) and y = complex (g: leaf B)
(structure sharing off), `unify(x, y)` succeeds, and the subsequent
`unify(x, x)` returns a graph whose top node carries the arcs `f` AND `g`
— not a graph structurally equal to x, whose only arc is `f`.  The scratch
`forward` and `comp_arc_list` written in the first episode are still
honoured in the second one: `dereference` and `copy_with_comp_arcs` never
compare a node's `generation` with the counter, so nothing ever treats the
prior episode's scratch fields as absent. -/
theorem unify_input_preservation_violated :
    (hget disjointPairHeap 0).map (fun nd => arcLabels nd.arc_list) = some ["f"] ∧
    unifySucceeds (unify 20 0 2 (initState disjointPairHeap false 4)) = true ∧
    (resultNode (andThenUnify (unify 20 0 2 (initState disjointPairHeap false 4)) 20 0 0)).map
        (fun nd => arcLabels nd.arc_list) = some ["f", "g"] := by
  decide

/-- C2: copy-out does not dereference, does not recurse and does not
produce an independent graph.  On x = complex (f: (h: leaf A))
and y = complex (f: (k: leaf B), g: leaf C) the successful
`unify(x, y)` returns a top node whose arcs reference the original input
objects 1 and 5 (x's child and y's child, not fresh copies), and the
reachable child 1 has been mutated by the episode (`forward = 4`) while its
`arc_list` still lacks the unified feature `k`. -/
theorem copy_out_shares_input_children :
    (resultNode (unify 30 0 3 (initState nestedHeap false 7))).map
        (fun nd => nd.arc_list) = some [⟨"f", 1⟩, ⟨"g", 5⟩] ∧
    (hget nestedHeap 0).map (fun nd => nd.arc_list) = some [⟨"f", 1⟩] ∧
    ((finalState (unify 30 0 3 (initState nestedHeap false 7))).bind
        (fun s => hget s.heap 1)).map (fun nd => (nd.forward, nd.arc_list)) =
      some (some 4, [⟨"h", 2⟩]) := by
  decide

/-- C7: outputs of distinct top-level `unify` calls are never the
independent fresh graphs the claim demands.  With structure sharing on
(the constructor default) the claim fails at its root: the first
successful `unify(x, y)` raises `TypeError` out of `copy_with_comp_arcs`
— the unhashable `DGNode` is hashed by the `WeakSet` membership test — so
no output is ever produced; the final state shows `unify_core` had already
succeeded (node 0 merged, counter advanced) when the exception escaped.
With structure sharing off, `unify(x, y)` and a subsequent `unify(x, x)`
both return top nodes whose arcs reference the same original child objects
1 and 3, so the two outputs share mutable substructure with each other. -/
theorem unify_outputs_not_independent :
    unify 20 0 2 (initState disjointPairHeap true 4) =
      Res.exc PyExc.typeError
        { heap := hset disjointPairHeap 0
            { node_type := NodeType.complex, arc_list := [⟨"f", 1⟩],
              comp_arc_list := [⟨"g", 3⟩], forward := some 2, copy := none,
              generation := 11, name := none }
          nextId := 4, counter := 11, structure_sharing := true,
          shared_structures := [] } ∧
    (resultNode (unify 20 0 2 (initState disjointPairHeap false 4))).map
        (fun nd => nd.arc_list) = some [⟨"f", 1⟩, ⟨"g", 3⟩] ∧
    (resultNode (andThenUnify (unify 20 0 2 (initState disjointPairHeap false 4)) 20 0 0)).map
        (fun nd => nd.arc_list) = some [⟨"f", 1⟩, ⟨"g", 3⟩] := by
  decide

/-- C3 counterexample: an invariant-violation error is not mapped to the
failure indicator.  On an input whose `forward` points at itself,
`dereference` raises `ValueError`, which the top-level `unify` does not
catch (it catches only `UnificationFailure`): the exception escapes the
boundary instead of becoming `None`. -/
theorem unify_cycle_error_escapes :
    unify 10 0 1 (initState cycleHeap true 2) =
      Res.exc PyExc.valueError (initState cycleHeap true 2) := by
  decide

/-- C4 counterexample: success of `unify` is not commutative.  With
x = complex (f: P, g: P) where P = complex (s: leaf A) (a shared
substructure) and y = complex (f: (u: leaf C), g: (s: leaf B)), on a
unifier with structure sharing off (under the sharing default no call can
succeed at all: copy-out raises `TypeError`), `unify(x, y)` succeeds while
`unify(y, x)` — run on fresh copies of the same two graphs — returns the
failure indicator. -/
theorem unify_success_not_commutative :
    unifySucceeds (unify 30 0 3 (initState corefHeap false 8)) = true ∧
    unifyFails (unify 30 3 0 (initState corefHeap false 8)) = true := by
  decide

/-- C5 counterexample: `intersect_arcs(A, B)` does not return arcs of A in
A's order.  For A = [f:1, g:2] and B = [g:3, f:4] it returns B's own arcs
in B's order, [g:3, f:4], which differs (already label-wise) from the arcs
of A whose label appears in B, [f:1, g:2]. -/
theorem intersect_arcs_returns_second_operand :
    intersect_arcs [⟨"f", 1⟩, ⟨"g", 2⟩] [⟨"g", 3⟩, ⟨"f", 4⟩] = [⟨"g", 3⟩, ⟨"f", 4⟩] ∧
    ([⟨"f", 1⟩, ⟨"g", 2⟩] : List Arc).filter
        (fun a => decide (a.label ∈ arcLabels [⟨"g", 3⟩, ⟨"f", 4⟩])) =
      [⟨"f", 1⟩, ⟨"g", 2⟩] ∧
    intersect_arcs [⟨"f", 1⟩, ⟨"g", 2⟩] [⟨"g", 3⟩, ⟨"f", 4⟩] ≠
      ([⟨"f", 1⟩, ⟨"g", 2⟩] : List Arc).filter
        (fun a => decide (a.label ∈ arcLabels [⟨"g", 3⟩, ⟨"f", 4⟩])) := by
  decide

/-- C5 (amended): `intersect_arcs(A, B)` returns exactly the arcs of the
SECOND operand B whose label also appears in A, in B's order; hence the
recursive unification over shared arcs in a complex-complex join proceeds
in the second operand's arc order (the loop iterates over this list). -/
theorem intersect_arcs_filters_second_operand (arcs1 arcs2 : List Arc) :
    intersect_arcs arcs1 arcs2 =
      arcs2.filter (fun a => decide (a.label ∈ arcLabels arcs1)) :=
  intersectGo_eq_filter (arcLabels arcs1) arcs2

/-- C6 counterexample: after the successful disjoint complex-complex merge
of x = node 0 and y = node 2, the representative (node 2, no forward) holds
an empty `comp_arc_list` and only its own arc `g` — its `arc_list` together
with its `comp_arcs` does NOT describe the unified feature set (f and g) —
while the complement arcs live (generation 11 = counter) on the forwarded
node 0. -/
theorem comp_arcs_not_on_representative :
    coreProbe (unify_core 10 0 2 (initState disjointPairHeap true 4)) 2 =
      some (some (create_complex_node [⟨"g", 3⟩]), 11) ∧
    coreProbe (unify_core 10 0 2 (initState disjointPairHeap true 4)) 0 =
      some (some { node_type := NodeType.complex, arc_list := [⟨"f", 1⟩],
                   comp_arc_list := [⟨"g", 3⟩], forward := some 2, copy := none,
                   generation := 11, name := none }, 11) := by
  decide

/-- C8 counterexample: path compression does not stamp the rewritten
forward pointers with the current generation.  Dereferencing the chain
0 → 1 → 2 rewrites node 0's forward to the representative 2 but leaves its
`generation` at 0 while the unifier's counter is 10. -/
theorem dereference_no_generation_stamp :
    derefProbe (dereference 5 0 (initState chainHeap true 3)) 0 =
      some (2, some (some 2, 0), 10) := by
  decide

/-- C9 counterexample: `create_complex_node` does not reject duplicate
labels.  Given two arcs both labelled "f" it silently constructs a complex
node carrying exactly those arcs, and that node even flows through a
top-level `unify` on a sharing-off unifier whose successful output again
carries the duplicate labels — no invariant-violation error is surfaced
anywhere. -/
theorem create_complex_node_accepts_duplicates :
    (create_complex_node [⟨"f", 1⟩, ⟨"f", 2⟩]).arc_list = [⟨"f", 1⟩, ⟨"f", 2⟩] ∧
    arcLabels (create_complex_node [⟨"f", 1⟩, ⟨"f", 2⟩]).arc_list = ["f", "f"] ∧
    (resultNode (unify 10 0 3 (initState dupHeap false 4))).map
        (fun nd => arcLabels nd.arc_list) = some ["f", "f"] := by
  decide

/-- C9 (amended): `create_complex_node` performs no validation at all: for
every arc list — duplicate labels included — it returns a complex node
carrying exactly that arc list, with all scratch fields in their initial
state. -/
theorem create_complex_node_no_validation (arcs : List Arc) :
    (create_complex_node arcs).node_type = NodeType.complex ∧
    (create_complex_node arcs).arc_list = arcs ∧
    (create_complex_node arcs).comp_arc_list = [] ∧
    (create_complex_node arcs).forward = none ∧
    (create_complex_node arcs).generation = 0 :=
  ⟨rfl, rfl, rfl, rfl, rfl⟩

/-- C3 (amended): `UnificationFailure` never escapes: with structure
sharing off, the top-level `unify` of two fresh leaves succeeds exactly
when the names are equal and returns the failure indicator `None` exactly
when they differ, and a leaf-name clash at recursion depth two is likewise
mapped to `None`.  But the only exception mapped to `None` is
`UnificationFailure`: invariant-violation errors (`ValueError` from cycle
detection) propagate past the boundary, and with structure sharing on (the
constructor default) even the successful leaf-leaf unification of two
equal names raises `TypeError` out of copy-out, which also escapes. -/
theorem unify_failure_boundary (a b : String) :
    unifySucceeds (unifyLeafRun false a b) = decide (a = b) ∧
    unifyFails (unifyLeafRun false a b) = decide (a ≠ b) ∧
    unifyFails (unify 20 0 3 (initState clashHeap false 6)) = true ∧
    unifyLeafRun true a a =
      Res.exc PyExc.typeError (initState (leafPairHeap a a) true 2) := by
  refine ⟨?_, ?_, by decide, ?_⟩ <;>
    by_cases h : a = b <;>
      simp [unifyLeafRun, unify, unify_core, ucAux, dereference, derefLoop, compress,
        hget, leafPairHeap, initState, create_leaf_node, is_leaf_node,
        copy_with_comp_arcs, next_generation, unifySucceeds, unifyFails, h]

/-- C4 (amended): with structure sharing off, commutativity holds for
leaf-leaf inputs: on fresh leaves named `a` and `b`, `unify(x, y)` succeeds
exactly when `unify(y, x)` does, and when both succeed the two output nodes
are structurally identical (the leaf with the common name).  For nested
complex graphs with shared substructure, both commutativity of success and
structural equality of the outputs fail (see the counterexample); with
structure sharing on no call succeeds at all, copy-out raising `TypeError`. -/
theorem unify_leaf_commutes (a b : String) :
    unifySucceeds (unifyLeafRun false a b) = unifySucceeds (unifyLeafRun false b a) ∧
    resultNode (unifyLeafRun false a b) = (if a = b then some (create_leaf_node a) else none) ∧
    resultNode (unifyLeafRun false b a) = (if a = b then some (create_leaf_node a) else none) := by
  by_cases h : a = b
  · subst h
    refine ⟨rfl, ?_, ?_⟩ <;>
      simp [unifyLeafRun, unify, unify_core, ucAux, dereference, derefLoop, compress,
        hget, leafPairHeap, initState, create_leaf_node, is_leaf_node,
        copy_with_comp_arcs, next_generation, resultNode]
  · have h' : ¬ b = a := fun hb => h hb.symm
    refine ⟨?_, ?_, ?_⟩ <;>
      simp [unifyLeafRun, unify, unify_core, ucAux, dereference, derefLoop, compress,
        hget, leafPairHeap, initState, create_leaf_node, is_leaf_node,
        copy_with_comp_arcs, next_generation, resultNode, unifySucceeds, h, h']

/-- Characterization of the disjoint complex-complex merge: when both
dereferenced operands are distinct, forward-free complex nodes sharing no
arc label, `unify_core` succeeds and the entire effect on the state is the
single write to node `n1` (complement arcs appended to its
`comp_arc_list`, `generation` stamped with the advanced counter, `forward`
set to `n2`) together with the counter advance. -/
theorem unify_core_disjoint_eq (f : Nat) (s : UState) (n1 n2 : Nat) (c1 c2 : DGNode)
    (h1 : hget s.heap n1 = some c1) (h2 : hget s.heap n2 = some c2)
    (hf1 : c1.forward = none) (hf2 : c2.forward = none) (hne : n1 ≠ n2)
    (ht1 : c1.node_type = NodeType.complex) (ht2 : c2.node_type = NodeType.complex)
    (hdisj : ∀ a ∈ c2.arc_list, a.label ∉ arcLabels c1.arc_list) :
    unify_core (f + 1 + 1) n1 n2 s =
      Res.ok true
        { s with
          heap := hset s.heap n1
            { c1 with
              comp_arc_list := c1.comp_arc_list ++ c2.arc_list
              generation := s.counter + 1
              forward := some n2 }
          counter := s.counter + 1 } := by
  have hint : intersect_arcs c1.arc_list c2.arc_list = [] :=
    intersectGo_eq_nil _ _ hdisj
  have hcomp : complement_arcs c2.arc_list c1.arc_list = c2.arc_list :=
    complementGo_eq_self _ _ hdisj
  simp [unify_core, ucAux, dereference, derefLoop, compress, h1, h2, hf1, hf2,
    hne, is_leaf_node, ht1, ht2, hint, hcomp, next_generation]

/-- C10: disjoint complex-complex merge frame property — when the two
dereferenced operands are distinct, forward-free complex nodes sharing no
arc label, `unify_core` succeeds, the only heap change is to `n1`'s
`comp_arc_list`, `generation` and `forward` fields (its `arc_list` is kept),
and `n2`'s node — `arc_list`, `comp_arc_list`, `forward`, `generation` — is
left entirely unchanged, as is every other node. -/
theorem unify_core_disjoint_frame (f : Nat) (s : UState) (n1 n2 : Nat) (c1 c2 : DGNode)
    (h1 : hget s.heap n1 = some c1) (h2 : hget s.heap n2 = some c2)
    (hf1 : c1.forward = none) (hf2 : c2.forward = none) (hne : n1 ≠ n2)
    (ht1 : c1.node_type = NodeType.complex) (ht2 : c2.node_type = NodeType.complex)
    (hdisj : ∀ a ∈ c2.arc_list, a.label ∉ arcLabels c1.arc_list) :
    unify_core (f + 1 + 1) n1 n2 s =
      Res.ok true
        { s with
          heap := hset s.heap n1
            { c1 with
              comp_arc_list := c1.comp_arc_list ++ c2.arc_list
              generation := s.counter + 1
              forward := some n2 }
          counter := s.counter + 1 } :=
  unify_core_disjoint_eq f s n1 n2 c1 c2 h1 h2 hf1 hf2 hne ht1 ht2 hdisj

/-- Witness for C10 at the concrete disjoint pair x = node 0, y = node 2. -/
theorem unify_core_disjoint_frame_witness :
    unify_core 10 0 2 (initState disjointPairHeap true 4) =
      Res.ok true
        { heap := hset disjointPairHeap 0
            { node_type := NodeType.complex, arc_list := [⟨"f", 1⟩],
              comp_arc_list := [⟨"g", 3⟩], forward := some 2, copy := none,
              generation := 11, name := none }
          nextId := 4, counter := 11, structure_sharing := true,
          shared_structures := [] } := by
  exact unify_core_disjoint_frame 8 (initState disjointPairHeap true 4) 0 2
    (create_complex_node [⟨"f", 1⟩]) (create_complex_node [⟨"g", 3⟩])
    (by decide) (by decide) rfl rfl (by decide) rfl rfl (by decide)

/-- C6 (amended): after a successful disjoint complex-complex merge the
equivalence class has exactly one forward-free node, the representative —
which is the SECOND dereferenced operand `n2`, left entirely unchanged —
and the forward chain of the other operand terminates at it in one step;
but the live complement arcs describing the extra unified features are held
by the forwarded node `n1` (stamped with the current generation), not by
the representative. -/
theorem unify_core_comp_on_forwarded (f : Nat) (s : UState) (n1 n2 : Nat) (c1 c2 : DGNode)
    (h1 : hget s.heap n1 = some c1) (h2 : hget s.heap n2 = some c2)
    (hf1 : c1.forward = none) (hf2 : c2.forward = none) (hne : n1 ≠ n2)
    (ht1 : c1.node_type = NodeType.complex) (ht2 : c2.node_type = NodeType.complex)
    (hdisj : ∀ a ∈ c2.arc_list, a.label ∉ arcLabels c1.arc_list) :
    unify_core (f + 1 + 1) n1 n2 s =
      Res.ok true
        { s with
          heap := hset s.heap n1
            { c1 with
              comp_arc_list := c1.comp_arc_list ++ c2.arc_list
              generation := s.counter + 1
              forward := some n2 }
          counter := s.counter + 1 } ∧
    hget (hset s.heap n1
        { c1 with
          comp_arc_list := c1.comp_arc_list ++ c2.arc_list
          generation := s.counter + 1
          forward := some n2 }) n2 = some c2 ∧
    c2.forward = none ∧
    hget (hset s.heap n1
        { c1 with
          comp_arc_list := c1.comp_arc_list ++ c2.arc_list
          generation := s.counter + 1
          forward := some n2 }) n1 =
      some { c1 with
             comp_arc_list := c1.comp_arc_list ++ c2.arc_list
             generation := s.counter + 1
             forward := some n2 } := by
  refine ⟨unify_core_disjoint_eq f s n1 n2 c1 c2 h1 h2 hf1 hf2 hne ht1 ht2 hdisj, ?_, hf2, ?_⟩
  · rw [hget_hset_ne (fun hh => hne hh.symm)]
    exact h2
  · exact hget_hset_self h1

/-- Witness for the amended C6 at the concrete disjoint pair. -/
theorem unify_core_comp_on_forwarded_witness :
    unify_core 10 0 2 (initState disjointPairHeap true 4) =
      Res.ok true
        { heap := hset disjointPairHeap 0
            { node_type := NodeType.complex, arc_list := [⟨"f", 1⟩],
              comp_arc_list := [⟨"g", 3⟩], forward := some 2, copy := none,
              generation := 11, name := none }
          nextId := 4, counter := 11, structure_sharing := true,
          shared_structures := [] } ∧
    hget (hset disjointPairHeap 0
        { node_type := NodeType.complex, arc_list := [⟨"f", 1⟩],
          comp_arc_list := [⟨"g", 3⟩], forward := some 2, copy := none,
          generation := 11, name := none }) 2 =
      some (create_complex_node [⟨"g", 3⟩]) ∧
    (create_complex_node [⟨"g", 3⟩]).forward = none ∧
    hget (hset disjointPairHeap 0
        { node_type := NodeType.complex, arc_list := [⟨"f", 1⟩],
          comp_arc_list := [⟨"g", 3⟩], forward := some 2, copy := none,
          generation := 11, name := none }) 0 =
      some { node_type := NodeType.complex, arc_list := [⟨"f", 1⟩],
             comp_arc_list := [⟨"g", 3⟩], forward := some 2, copy := none,
             generation := 11, name := none } := by
  exact unify_core_comp_on_forwarded 8 (initState disjointPairHeap true 4) 0 2
    (create_complex_node [⟨"f", 1⟩]) (create_complex_node [⟨"g", 3⟩])
    (by decide) (by decide) rfl rfl (by decide) rfl rfl (by decide)

theorem isChain_last {h : Heap} {l : List Nat} {r : Nat} (hch : isChain h l r) :
    ∃ nd, hget h r = some nd ∧ nd.forward = none := by
  induction l with
  | nil => exact hch
  | cons i rest ih =>
    obtain ⟨nd, _, _, hrest⟩ := hch
    exact ih hrest

theorem isChain_not_mem {h : Heap} {l : List Nat} {r : Nat} (hch : isChain h l r) :
    r ∉ l := by
  induction l with
  | nil => simp
  | cons i rest ih =>
    obtain ⟨nd, hg, hf, hrest⟩ := hch
    obtain ⟨ndr, hgr, hfr⟩ := isChain_last hrest
    intro hmem
    rcases List.mem_cons.mp hmem with hri | hri
    · subst hri
      rw [hg] at hgr
      cases hgr
      rw [hf] at hfr
      cases hfr
    · exact ih hrest hri

theorem derefLoop_chain (l : List Nat) (r : Nat) (s : UState) (acc : List Nat)
    (hch : isChain s.heap l r) (hnd : l.Nodup) (hacc : ∀ i ∈ l, i ∉ acc) :
    derefLoop (l.length + 1) (l.headD r) acc s = Res.ok (r, acc ++ l) s := by
  induction l generalizing acc with
  | nil =>
    obtain ⟨nd, hg, hf⟩ := hch
    simp [derefLoop, hg, hf]
  | cons i rest ih =>
    obtain ⟨nd, hg, hf, hrest⟩ := hch
    have hi : i ∉ acc := hacc i (by simp)
    have step :
        derefLoop (rest.length + 1 + 1) i acc s =
          derefLoop (rest.length + 1) (rest.headD r) (acc ++ [i]) s := by
      simp [derefLoop, hg, hf, hi]
    have hrec := ih (acc ++ [i]) hrest (List.Nodup.of_cons hnd)
      (fun j hj => by
        intro hmem
        rcases List.mem_append.mp hmem with hj' | hj'
        · exact hacc j (by simp [hj]) hj'
        · have : j = i := by simpa using hj'
          subst this
          exact (List.nodup_cons.mp hnd).1 hj)
    calc derefLoop ((i :: rest).length + 1) ((i :: rest).headD r) acc s
        = derefLoop (rest.length + 1) (rest.headD r) (acc ++ [i]) s := by
          simpa [List.length_cons] using step
      _ = Res.ok (r, (acc ++ [i]) ++ rest) s := hrec
      _ = Res.ok (r, acc ++ i :: rest) s := by simp

theorem compress_get_notmem {h : Heap} {l : List Nat} {j : Nat} {rep : Nat}
    (hj : j ∉ l) : hget (compress h l rep) j = hget h j := by
  induction l generalizing h with
  | nil => rfl
  | cons i rest ih =>
    have hji : j ≠ i := fun hh => hj (by simp [hh])
    have hjr : j ∉ rest := fun hh => hj (by simp [hh])
    cases hgi : hget h i with
    | none => simp [compress, hgi, ih hjr]
    | some nd => simp [compress, hgi, ih hjr, hget_hset_ne hji]

theorem compress_get_mem {h : Heap} {l : List Nat} {i : Nat} {rep : Nat} {nd : DGNode}
    (hnd : l.Nodup) (hmem : i ∈ l) (hg : hget h i = some nd) :
    hget (compress h l rep) i = some { nd with forward := some rep } := by
  induction l generalizing h with
  | nil => cases hmem
  | cons k rest ih =>
    rcases List.mem_cons.mp hmem with hik | hik
    · subst hik
      have hrest : i ∉ rest := (List.nodup_cons.mp hnd).1
      simp [compress, hg, compress_get_notmem hrest, hget_hset_self hg]
    · have hne : i ≠ k := by
        intro hh
        subst hh
        exact (List.nodup_cons.mp hnd).1 hik
      cases hgk : hget h k with
      | none => simp [compress, hgk, ih (List.Nodup.of_cons hnd) hik hg]
      | some ndk =>
        have hg' : hget (hset h k { ndk with forward := some rep }) i = some nd := by
          rw [hget_hset_ne hne]
          exact hg
        simp [compress, hgk, ih (List.Nodup.of_cons hnd) hik hg']

/-- C8 (amended): on a well-formed (acyclic, duplicate-free) forward chain,
`dereference` never fails: it returns the unique forward-free node `r` at
the end of the chain, rewrites every visited node's `forward` to point
directly at `r` while leaving every other field — in particular
`generation`, which is NOT stamped — and every other node untouched, and
dereferencing the result again within the same state returns the same node
with the state unchanged. -/
theorem dereference_chain_spec (l : List Nat) (r : Nat) (s : UState)
    (hch : isChain s.heap l r) (hnd : l.Nodup) :
    dereference (l.length + 1) (l.headD r) s =
      Res.ok r { s with heap := compress s.heap l r } ∧
    (∀ i ∈ l, ∀ nd, hget s.heap i = some nd →
      hget (compress s.heap l r) i = some { nd with forward := some r }) ∧
    (∀ j, j ∉ l → hget (compress s.heap l r) j = hget s.heap j) ∧
    dereference 1 r { s with heap := compress s.heap l r } =
      Res.ok r { s with heap := compress s.heap l r } := by
  obtain ⟨ndr, hgr, hfr⟩ := isChain_last hch
  have hloop := derefLoop_chain l r s [] hch hnd (by simp)
  refine ⟨?_, ?_, ?_, ?_⟩
  · simp only [dereference, hloop, List.nil_append]
  · intro i hi nd hg
    exact compress_get_mem hnd hi hg
  · intro j hj
    exact compress_get_notmem hj
  · have hgr' : hget (compress s.heap l r) r = some ndr := by
      rw [compress_get_notmem (isChain_not_mem hch)]
      exact hgr
    simp [dereference, derefLoop, hgr', hfr, compress]

/-- Witness for the amended C8 on the concrete chain 0 → 1 → 2. -/
theorem dereference_chain_spec_witness :
    isChain (initState chainHeap true 3).heap [0, 1] 2 ∧
    dereference 3 0 (initState chainHeap true 3) =
      Res.ok 2 { initState chainHeap true 3 with
                 heap := compress (initState chainHeap true 3).heap [0, 1] 2 } := by
  have hch : isChain (initState chainHeap true 3).heap [0, 1] 2 :=
    ⟨_, rfl, rfl, ⟨_, rfl, rfl, ⟨_, rfl, rfl⟩⟩⟩
  exact ⟨hch, (dereference_chain_spec [0, 1] 2 (initState chainHeap true 3) hch (by decide)).1⟩

end Tomabechi
